import Mathlib

/-!
Verification development for the dynamic component registry / rendering
pipeline and the redirect-rule subsystem of a CMS-backed web site.

The definitions below are shallow embeddings of the corresponding source
functions:

* `toPascalCase`             — `src/utils/string-utils.ts`
* `ComponentMapper.*`        — `ComponentMapper.ts`
* `ComponentRenderer`        — `ComponentRenderer.tsx`
* `ReferencePlaceholder`     — `ReferencePlaceholder.tsx`
* `routeGET`                 — `src/app/api/redirect/route.ts` (`GET`)
* `handler`                  — `[proxy].edge.js` (edge interceptor)

JavaScript strings are modelled as `String` (lists of scalar values);
machine timestamps as `Nat`; thrown exceptions as `Except` values;
`React.ComponentType` values as the inductive `RComponent`.
-/

/-! ## Character classes used by the regexes in `toPascalCase`

`toPascalCase` is

```js
str.replace(/([a-z])([A-Z])/g, '$1 $2')
   .replace(/[_\-\s]+(.)?/g, (_, c) => (c ? c.toUpperCase() : ''))
   .replace(/^[a-z]/, (c) => c.toUpperCase());
```
-/

/-- Membership in the regex class `[a-z]` (ASCII lowercase letters). -/
def isLowAZ (c : Char) : Bool :=
  97 ≤ c.toNat && c.toNat ≤ 122

/-- Membership in the regex class `[A-Z]` (ASCII uppercase letters). -/
def isUpAZ (c : Char) : Bool :=
  65 ≤ c.toNat && c.toNat ≤ 90

/-- Membership in the regex class `[_\-\s]`: underscore, hyphen, or a
JavaScript whitespace character (`\s`). -/
def isWordSep (c : Char) : Bool :=
  c.toNat = 95 || c.toNat = 45 || c.toNat = 32 || c.toNat = 9 || c.toNat = 10 ||
  c.toNat = 11 || c.toNat = 12 || c.toNat = 13 || c.toNat = 160 || c.toNat = 5760 ||
  (8192 ≤ c.toNat && c.toNat ≤ 8202) || c.toNat = 8232 || c.toNat = 8233 ||
  c.toNat = 8239 || c.toNat = 8287 || c.toNat = 12288 || c.toNat = 65279

/-- JavaScript `c.toUpperCase()` restricted to single characters: ASCII
lowercase letters map to the corresponding uppercase letter, everything
else is unchanged. -/
def upChar (c : Char) : Char :=
  if isLowAZ c then Char.ofNat (c.toNat - 32) else c

/-- First regex pass, tail worker: `replace(/([a-z])([A-Z])/g, '$1 $2')`
inserts a space between each adjacent lowercase/uppercase pair.  `prev`
is the character already emitted directly before the current list. -/
def step1Go (prev : Char) : List Char → List Char
  | [] => []
  | b :: rest =>
    if isLowAZ prev && isUpAZ b then ' ' :: b :: step1Go b rest
    else b :: step1Go b rest

/-- First regex pass of `toPascalCase`. -/
def step1 : List Char → List Char
  | [] => []
  | a :: rest => a :: step1Go a rest

/-- Second regex pass: `replace(/[_\-\s]+(.)?/g, (_, c) => (c ? c.toUpperCase() : ''))`.
A maximal run of separators together with the (optional) following
character is replaced by that character uppercased.  `inSep` records
whether the previous character ended a separator run, so that the current
character is the `(.)?` capture.  The JS callback tests the capture for
truthiness, so the one-character string `"0"` (which is falsy) is dropped
rather than kept — the embedding reproduces that. -/
def step2Go (inSep : Bool) : List Char → List Char
  | [] => []
  | c :: rest =>
    if isWordSep c then step2Go true rest
    else if inSep then
      (if c = '0' then step2Go false rest else upChar c :: step2Go false rest)
    else c :: step2Go false rest

/-- Second regex pass of `toPascalCase`. -/
def step2 (l : List Char) : List Char :=
  step2Go false l

/-- Third regex pass: `replace(/^[a-z]/, (c) => c.toUpperCase())` —
uppercase the first character when it is an ASCII lowercase letter. -/
def step3 : List Char → List Char
  | [] => []
  | c :: rest => (if isLowAZ c then upChar c else c) :: rest

/-- Embedding of `toPascalCase` from `src/utils/string-utils.ts`:
converts snake_case / kebab-case / mixed text to PascalCase. -/
def toPascalCase (s : String) : String :=
  String.mk (step3 (step2 (step1 s.data)))

/-! ## ComponentMapper (`ComponentMapper.ts`) -/

/-- A renderable implementation (`React.ComponentType`): either the
distinguished `NotFound` fallback or one of the concrete implementations
registered by the generated component manifest (identified abstractly by
a number). -/
inductive RComponent where
  | notFound : RComponent
  | impl : Nat → RComponent
deriving DecidableEq, Repr

/-- Lookup in a string-keyed record (`this.components[key]`).  The record
is modelled as an association list where the most recent assignment is at
the head. -/
def lookupComp : List (String × RComponent) → String → Option RComponent
  | [], _ => none
  | (k, c) :: rest, key => if k = key then some c else lookupComp rest key

/-- The registry state: the private `components` record of the
`ComponentMapper` singleton. -/
structure ComponentMapper where
  components : List (String × RComponent)
deriving DecidableEq, Repr

/-- Embedding of `ComponentMapper.register`:
`this.components[toPascalCase(name)] = component`.  Property assignment
on a JS object is modelled by putting the new binding in front of the
association list, which later lookups see first.  The operation is total:
no error is raised on overwrite. -/
def ComponentMapper.register (m : ComponentMapper) (name : String)
    (component : RComponent) : ComponentMapper :=
  ⟨(toPascalCase name, component) :: m.components⟩

/-- Embedding of `ComponentMapper.getComponent`:
`this.components[toPascalCase(name)] ?? this.notFoundComponent`. -/
def ComponentMapper.getComponent (m : ComponentMapper) (name : String) : RComponent :=
  match lookupComp m.components (toPascalCase name) with
  | some component => component
  | none => RComponent.notFound

/-- Embedding of `ComponentMapper.hasComponent`:
`!!this.components[toPascalCase(name)]` — component values are JS
function objects, hence truthy, so the double negation is exactly
presence of the key. -/
def ComponentMapper.hasComponent (m : ComponentMapper) (name : String) : Bool :=
  (lookupComp m.components (toPascalCase name)).isSome

/-! ## Tree Renderer (`ComponentRenderer.tsx`) -/

/-- A rendered output node; rendering results are opaque to the claims,
so a number suffices. -/
abbrev RenderNode := Nat

/-- Opaque props bag (the CMS value under a block's type-name key, and
the shared extended props). -/
abbrev PropsBag := Nat

/-- The JSX attributes the renderer passes when invoking a resolved
implementation: `componentName={toPascalCase(componentName)}`,
`extendedProps={extendedProps}` and the spread of the block's props. -/
structure InvocationArgs where
  componentName : String
  extendedProps : PropsBag
  props : PropsBag
deriving DecidableEq, Repr

/-- An invocation semantics for implementations: invoking a component may
produce a node or throw.  The renderer is parametric in it, mirroring the
fact that registered implementations are arbitrary client code. -/
abbrev Invoke := RComponent → InvocationArgs → Except String RenderNode

/-- One CMS content block: an object whose key order is `keys` (the first
key is the block's type name, `Object.keys(component)?.[0]`) and whose
first value is the props bag. -/
structure ContentBlock where
  keys : List String
  props : PropsBag
deriving DecidableEq, Repr

/-- Embedding of the body of `components?.map((component, index) => ...)`
in `ComponentRenderer`: extract the type-name key, resolve through the
registry and invoke, catching any exception and returning `null`
(modelled as `none`).  When the block has no key, `toPascalCase(undefined)`
throws inside the `try` block, which the `catch` turns into `null` as
well. -/
def renderBlock (invoke : Invoke) (m : ComponentMapper) (extendedProps : PropsBag)
    (block : ContentBlock) : Option RenderNode :=
  match block.keys.head? with
  | none => none
  | some name =>
    match invoke (m.getComponent name) ⟨toPascalCase name, extendedProps, block.props⟩ with
    | Except.ok node => some node
    | Except.error _ => none

/-- Does processing of `block` throw during resolution or invocation?
Resolution throws exactly when the block has no key (so `toPascalCase` is
applied to `undefined`); invocation throws when the resolved
implementation does. -/
def renderBlockThrows (invoke : Invoke) (m : ComponentMapper) (extendedProps : PropsBag)
    (block : ContentBlock) : Bool :=
  match block.keys.head? with
  | none => true
  | some name =>
    match invoke (m.getComponent name) ⟨toPascalCase name, extendedProps, block.props⟩ with
    | Except.ok _ => false
    | Except.error _ => true

/-- Embedding of `ComponentRenderer`: map `renderBlock` over the ordered
block sequence.  A `none` entry is the `null` produced by the per-item
`catch`. -/
def ComponentRenderer (invoke : Invoke) (m : ComponentMapper) (extendedProps : PropsBag)
    (components : List ContentBlock) : List (Option RenderNode) :=
  components.map (renderBlock invoke m extendedProps)

/-! ## Reference Resolver (`ReferencePlaceholder.tsx`) -/

/-- A typed CMS reference (`ISystemFields`): the `_content_type_uid`
discriminator (possibly absent), the entry `uid`, and the entry's own
fields. -/
structure SystemFields where
  contentTypeUid : Option String
  uid : String
  fields : PropsBag
deriving DecidableEq, Repr

/-- Output node of `ReferencePlaceholder`, keeping the three syntactically
distinct productions of the source apart:
* `empty` — the `<></>` returned for a null reference entry;
* `explicitNotFound` — the `<NotFound key componentName=.../>` of the
  `if (!Component)` branch;
* `rendered` — the `<Component key componentName componentUid
  extendedProps {...componentItem}/>` invocation of the resolved
  component (which may itself be the `NotFound` fallback returned by
  `getComponent`). -/
inductive RefNode where
  | empty : RefNode
  | explicitNotFound : String → RefNode
  | rendered : RComponent → String → String → PropsBag → PropsBag → RefNode
deriving DecidableEq, Repr

/-- JS truthiness test `!Component` on a component value: `getComponent`
always returns a function object, which is truthy, so the test is `false`
for every `RComponent`. -/
def componentIsFalsy (_ : RComponent) : Bool :=
  false

/-- JS `a || b` for an optional string `a` (the `componentName` prop):
`undefined` and the empty string are falsy. -/
def jsOrString (a : Option String) (b : String) : String :=
  match a with
  | none => b
  | some s => if s = "" then b else s

/-- Embedding of the body of `references?.map((componentItem, index) => ...)`
in `ReferencePlaceholder`. -/
def renderReference (m : ComponentMapper) (componentName : Option String)
    (extendedProps : PropsBag) (item : Option SystemFields) : RefNode :=
  match item with
  | none => RefNode.empty
  | some r =>
    let resolvedName := jsOrString componentName (toPascalCase (r.contentTypeUid.getD ""))
    let component := m.getComponent resolvedName
    if componentIsFalsy component then
      RefNode.explicitNotFound (r.contentTypeUid.getD "")
    else
      RefNode.rendered component (toPascalCase (r.contentTypeUid.getD "")) r.uid
        extendedProps r.fields

/-- Embedding of `ReferencePlaceholder`: map over the ordered reference
sequence. -/
def ReferencePlaceholder (m : ComponentMapper) (componentName : Option String)
    (extendedProps : PropsBag) (references : List (Option SystemFields)) : List RefNode :=
  references.map (renderReference m componentName extendedProps)

/-! ## Redirect rules endpoint (`src/app/api/redirect/route.ts`) -/

/-- One upstream redirect mapping entry as delivered by the CMS
(`IRedirectMappings.mappings[i]`).  `statusCode` stands for any redirect
status code the upstream entry may carry of its own; the route never
reads it. -/
structure Mapping where
  status : String
  source : String
  destination : String
  statusCode : Nat
deriving DecidableEq, Repr

/-- A served redirect rule (`RedirectRule` in `route.ts`). -/
structure RedirectRule where
  source : String
  destination : String
  permanent : Bool
  status : Nat
deriving DecidableEq, Repr

/-- The module-level mutable cache of the route:
`let cachedRedirects: RedirectRule[] | null = null; let cacheTimestamp = 0;`. -/
structure CacheState where
  cachedRedirects : Option (List RedirectRule)
  cacheTimestamp : Nat
deriving DecidableEq, Repr

/-- `CACHE_DURATION = 10 * 60 * 1000` (ten minutes in milliseconds). -/
def CACHE_DURATION : Nat := 10 * 60 * 1000

/-- The observable content of a `NextResponse` from the route: HTTP
status, JSON array body, and the cache-freshness headers (`X-Cached`,
`X-Stale`, `X-Error`; a missing header is `false` / `none`). -/
structure ApiResponse where
  status : Nat
  body : List RedirectRule
  cached : Bool
  stale : Bool
  errorMsg : Option String
deriving DecidableEq, Repr

/-- The transform of upstream data in the route:
`mappingEntries?.entries?.[0]?.mappings?.filter(m => m.status === 'Active')
   .map(m => ({source, destination, permanent: true, status: 301})) || []`.
`none` models a missing `entries`/`mappings` chain (the `?.` short
circuit), in which case `|| []` yields the empty array. -/
def transformMappings (fetched : Option (List Mapping)) : List RedirectRule :=
  ((fetched.getD []).filter (fun m => m.status = "Active")).map
    (fun m => ⟨m.source, m.destination, true, 301⟩)

/-- Embedding of the route's `GET` handler.  `now` is `Date.now()`; the
outcome of `await getEntries(...)` is passed in as `fetch` (`Except.error`
models a rejected promise, caught by the route's `catch`).  Returns the
response together with the new cache state.  Subtraction is on `Nat`:
`now < cacheTimestamp` makes `now - cacheTimestamp` zero, which compares
below `CACHE_DURATION` exactly as the negative JS difference does. -/
def routeGET (st : CacheState) (now : Nat)
    (fetch : Except String (Option (List Mapping))) : ApiResponse × CacheState :=
  match st.cachedRedirects with
  | some rules =>
    if now - st.cacheTimestamp < CACHE_DURATION then
      (⟨200, rules, true, false, none⟩, st)
    else
      match fetch with
      | Except.ok entries =>
        let rewrites := transformMappings entries
        (⟨200, rewrites, false, false, none⟩, ⟨some rewrites, now⟩)
      | Except.error e =>
        if rules.length > 0 then
          (⟨200, rules, true, true, some e⟩, st)
        else
          (⟨200, [], false, false, some e⟩, st)
  | none =>
    match fetch with
    | Except.ok entries =>
      let rewrites := transformMappings entries
      (⟨200, rewrites, false, false, none⟩, ⟨some rewrites, now⟩)
    | Except.error e =>
      (⟨200, [], false, false, some e⟩, st)

/-! ## Edge interceptor (`[proxy].edge.js`) -/

/-- The parts of the incoming request URL the interceptor looks at:
`origin` is protocol plus host, `search` the query string (empty when
absent). -/
structure EdgeRequest where
  origin : String
  pathname : String
  search : String
deriving DecidableEq, Repr

/-- A redirect rule as parsed from the rules endpoint's JSON; `status`
may be absent. -/
structure InterceptorRule where
  source : String
  destination : String
  status : Option Nat
deriving DecidableEq, Repr

/-- Outcome of `await fetch(apiUrl)` plus `response.json()`: the
`response.ok` flag and the parsed rules. -/
structure RulesFetch where
  ok : Bool
  rules : List InterceptorRule
deriving DecidableEq, Repr

/-- The interceptor's observable result: forward the original request
unmodified (`fetch(request)`), or answer with a redirect response. -/
inductive EdgeResult where
  | passthrough : EdgeResult
  | redirect : Nat → String → EdgeResult
deriving DecidableEq, Repr

/-- List-level worker for JS `String.prototype.startsWith`: does the
first list start with the second? -/
def charsStartWith : List Char → List Char → Bool
  | _, [] => true
  | [], _ :: _ => false
  | c :: cs, p :: ps => c = p && charsStartWith cs ps

/-- JS `s.startsWith(pat)` on scalar-value sequences. -/
def strStartsWith (s pat : String) : Bool :=
  charsStartWith s.data pat.data

/-- The skip list of the interceptor: API routes, framework internals,
static assets, and any path containing a dot (`pathname.includes('.')`). -/
def isSkippedPath (p : String) : Bool :=
  strStartsWith p "/api/" || strStartsWith p "/_next/" || strStartsWith p "/static/" ||
  p.data.contains '.'

/-- JS `redirect.status || 301`: `undefined` and `0` are falsy. -/
def jsOrStatus (status : Option Nat) : Nat :=
  match status with
  | none => 301
  | some s => if s = 0 then 301 else s

/-- `newUrl = new URL(request.url); newUrl.pathname = destination;
newUrl.toString()`: the origin and query string are kept, the path is
replaced by the destination (the URL pathname setter prepends a slash
when the new value lacks one). -/
def setPathname (req : EdgeRequest) (destination : String) : String :=
  req.origin ++ (if strStartsWith destination "/" then destination else "/" ++ destination)
    ++ req.search

/-- The `try` block of the interceptor `handler`.  `redirectsEnabled` is
`process.env.ENABLE_REDIRECTS === 'true'`; `rulesFetch` is the outcome of
fetching and parsing the rules endpoint, with `Except.error` modelling an
exception thrown inside the block (propagated by the `do` bind to the
`catch` in `handler`). -/
def handlerBody (redirectsEnabled : Bool) (req : EdgeRequest)
    (rulesFetch : Except String RulesFetch) : Except String EdgeResult :=
  if !redirectsEnabled then Except.ok EdgeResult.passthrough
  else if isSkippedPath req.pathname then Except.ok EdgeResult.passthrough
  else do
    let resp ← rulesFetch
    let redirects := if resp.ok then resp.rules else []
    match redirects.find? (fun rule => rule.source = req.pathname) with
    | some redirect =>
      let isExternal := strStartsWith redirect.destination "http://" ||
        strStartsWith redirect.destination "https://"
      let redirectUrl :=
        if isExternal then redirect.destination else setPathname req redirect.destination
      Except.ok (EdgeResult.redirect (jsOrStatus redirect.status) redirectUrl)
    | none => Except.ok EdgeResult.passthrough

/-- Embedding of the interceptor `handler`: run the `try` block; the
`catch` converts any exception into a pass-through (`fetch(request)`). -/
def handler (redirectsEnabled : Bool) (req : EdgeRequest)
    (rulesFetch : Except String RulesFetch) : EdgeResult :=
  match handlerBody redirectsEnabled req rulesFetch with
  | Except.ok r => r
  | Except.error _ => EdgeResult.passthrough

/-! ## Helper lemmas about characters -/

theorem char_toNat_ofNat_of_lt (n : Nat) (h : n < 55296) : (Char.ofNat n).toNat = n := by
  have hv : n.isValidChar := Or.inl h
  rw [Char.ofNat, dif_pos hv]
  rfl

theorem toNat_upChar_of_isLow (c : Char) (h : isLowAZ c = true) :
    (upChar c).toNat = c.toNat - 32 := by
  rw [upChar, if_pos h]
  have hb : 97 ≤ c.toNat ∧ c.toNat ≤ 122 := by
    simpa [isLowAZ, Bool.and_eq_true, decide_eq_true_eq] using h
  exact char_toNat_ofNat_of_lt _ (by omega)

theorem upChar_of_isUp (c : Char) (h : isUpAZ c = true) : upChar c = c := by
  have hb : 65 ≤ c.toNat ∧ c.toNat ≤ 90 := by
    simpa [isUpAZ, Bool.and_eq_true, decide_eq_true_eq] using h
  have hlow : isLowAZ c = false := by
    simp only [isLowAZ, Bool.and_eq_false_iff, decide_eq_false_iff_not]
    omega
  rw [upChar, if_neg (by simp [hlow])]

theorem isWordSep_upChar (c : Char) (h : isWordSep c = false) :
    isWordSep (upChar c) = false := by
  by_cases hl : isLowAZ c = true
  · have hb : 97 ≤ c.toNat ∧ c.toNat ≤ 122 := by
      simpa [isLowAZ, Bool.and_eq_true, decide_eq_true_eq] using hl
    have ht := toNat_upChar_of_isLow c hl
    simp only [isWordSep, ht, Bool.or_eq_false_iff, Bool.and_eq_false_iff,
      decide_eq_false_iff_not]
    omega
  · rw [upChar, if_neg hl]
    exact h

theorem isLowAZ_upChar (c : Char) (h : isLowAZ c = true) :
    isLowAZ (upChar c) = false := by
  have hb : 97 ≤ c.toNat ∧ c.toNat ≤ 122 := by
    simpa [isLowAZ, Bool.and_eq_true, decide_eq_true_eq] using h
  have ht := toNat_upChar_of_isLow c h
  simp only [isLowAZ, ht, Bool.and_eq_false_iff, decide_eq_false_iff_not]
  omega

theorem ne_digit_zero_of_isUp (c : Char) (h : isUpAZ c = true) : ¬(c = '0') := by
  intro hc
  subst hc
  exact absurd h (by decide)

/-! ## Helper lemmas about the `toPascalCase` passes -/

theorem isWordSep_of_mem_step2Go (l : List Char) :
    ∀ b, ∀ c ∈ step2Go b l, isWordSep c = false := by
  induction l with
  | nil => intro b c hc; simp [step2Go] at hc
  | cons a rest ih =>
    intro b c hc
    by_cases ha : isWordSep a = true
    · rw [step2Go, if_pos ha] at hc
      exact ih true c hc
    · have ha' : isWordSep a = false := by simpa using ha
      rw [step2Go, if_neg (by simp [ha'])] at hc
      cases b with
      | true =>
        rw [if_pos rfl] at hc
        by_cases h0 : a = '0'
        · rw [if_pos h0] at hc
          exact ih false c hc
        · rw [if_neg h0] at hc
          rcases List.mem_cons.mp hc with hh | ht
          · subst hh; exact isWordSep_upChar a ha'
          · exact ih false c ht
      | false =>
        rw [if_neg (by simp)] at hc
        rcases List.mem_cons.mp hc with hh | ht
        · subst hh; exact ha'
        · exact ih false c ht

theorem isWordSep_of_mem_step3 (l : List Char)
    (h : ∀ c ∈ l, isWordSep c = false) : ∀ c ∈ step3 l, isWordSep c = false := by
  cases l with
  | nil => intro c hc; simp [step3] at hc
  | cons a rest =>
    intro c hc
    rw [step3] at hc
    rcases List.mem_cons.mp hc with hh | ht
    · subst hh
      by_cases hl : isLowAZ a = true
      · rw [if_pos hl]
        exact isWordSep_upChar a (h a (List.mem_cons_self a rest))
      · rw [if_neg hl]
        exact h a (List.mem_cons_self a rest)
    · exact h c (List.mem_cons_of_mem a ht)

theorem step2Go_step1Go (l : List Char) (h : ∀ c ∈ l, isWordSep c = false) :
    ∀ p, step2Go false (step1Go p l) = l := by
  induction l with
  | nil => intro p; rfl
  | cons b rest ih =>
    intro p
    have hb : isWordSep b = false := h b (List.mem_cons_self b rest)
    have hrest : ∀ c ∈ rest, isWordSep c = false :=
      fun c hc => h c (List.mem_cons_of_mem b hc)
    by_cases hlu : (isLowAZ p && isUpAZ b) = true
    · have hup : isUpAZ b = true := (Bool.and_eq_true _ _ |>.mp hlu).2
      rw [step1Go, if_pos hlu]
      rw [step2Go, if_pos (by decide : isWordSep ' ' = true)]
      rw [step2Go, if_neg (by simp [hb]), if_pos rfl,
        if_neg (ne_digit_zero_of_isUp b hup), upChar_of_isUp b hup]
      rw [ih hrest b]
    · rw [step1Go, if_neg hlu]
      rw [step2Go, if_neg (by simp [hb]), if_neg (by simp)]
      rw [ih hrest b]

theorem step2_step1_of_noSep (l : List Char) (h : ∀ c ∈ l, isWordSep c = false) :
    step2 (step1 l) = l := by
  cases l with
  | nil => rfl
  | cons a rest =>
    have ha : isWordSep a = false := h a (List.mem_cons_self a rest)
    have hrest : ∀ c ∈ rest, isWordSep c = false :=
      fun c hc => h c (List.mem_cons_of_mem a hc)
    rw [step1, step2]
    rw [step2Go, if_neg (by simp [ha]), if_neg (by simp)]
    rw [step2Go_step1Go rest hrest a]

theorem step3_step3 (l : List Char) : step3 (step3 l) = step3 l := by
  cases l with
  | nil => rfl
  | cons a rest =>
    rw [step3, step3]
    by_cases hl : isLowAZ a = true
    · rw [if_pos hl, if_neg (by simp [isLowAZ_upChar a hl])]
    · rw [if_neg hl, if_neg hl]

/-! ## Registry helper lemmas -/

theorem lookupComp_mem (l : List (String × RComponent)) (key : String) (c : RComponent)
    (h : lookupComp l key = some c) : ∃ k, (k, c) ∈ l := by
  induction l with
  | nil => simp [lookupComp] at h
  | cons p rest ih =>
    obtain ⟨k0, c0⟩ := p
    by_cases hk : k0 = key
    · rw [lookupComp, if_pos hk] at h
      exact ⟨k0, by simp [Option.some_inj.mp h]⟩
    · rw [lookupComp, if_neg hk] at h
      obtain ⟨k, hkmem⟩ := ih h
      exact ⟨k, List.mem_cons_of_mem _ hkmem⟩

theorem getComponent_of_hasComponent_false (m : ComponentMapper) (name : String)
    (h : m.hasComponent name = false) : m.getComponent name = RComponent.notFound := by
  rw [ComponentMapper.hasComponent] at h
  rw [ComponentMapper.getComponent]
  cases hl : lookupComp m.components (toPascalCase name) with
  | none => rfl
  | some c => rw [hl] at h; simp at h

/-! ## C1 — registration is last-write-wins under canonicalization -/

/-- C1: registration is last-write-wins under canonicalization.  For any
two names whose `toPascalCase` forms are equal and any implementations
`A` and `B`, after `register(n1, A)` followed by `register(n2, B)`,
`getComponent(n1)` returns `B`.  `register` is a total function, so no
error is raised on the overwrite. -/
theorem register_last_write_wins (m : ComponentMapper) (n1 n2 : String)
    (A B : RComponent) (h : toPascalCase n1 = toPascalCase n2) :
    ((m.register n1 A).register n2 B).getComponent n1 = B := by
  rw [ComponentMapper.register, ComponentMapper.register, ComponentMapper.getComponent]
  rw [lookupComp, if_pos h.symm]

/-- Witness for C1 at concrete inputs: `hero_banner` and `HeroBanner`
canonicalize alike, and the second registration wins. -/
theorem register_last_write_wins_witness :
    toPascalCase "hero_banner" = toPascalCase "HeroBanner" ∧
    (((ComponentMapper.mk []).register "hero_banner" (RComponent.impl 1)).register
        "HeroBanner" (RComponent.impl 2)).getComponent "hero_banner" = RComponent.impl 2 :=
  ⟨by decide, register_last_write_wins (ComponentMapper.mk []) "hero_banner" "HeroBanner"
    (RComponent.impl 1) (RComponent.impl 2) (by decide)⟩

/-! ## C2 — `hasComponent` is false exactly on the fallback -/

/-- C2: for every name, `hasComponent` returns `false` exactly when
`getComponent` returns the fallback `NotFound` implementation, and `true`
exactly when `getComponent` returns a registered implementation;
`getComponent` is total (never throws) and always returns a renderable
implementation.  The hypothesis that the registry never stores the
fallback itself reflects the program: the generated manifest registers
only the authorable implementations (`components/authorable/shared`,
`components/ui`), never the `NotFound` primitive. -/
theorem hasComponent_false_iff_fallback (m : ComponentMapper) (name : String)
    (hm : ∀ p ∈ m.components, p.2 ≠ RComponent.notFound) :
    (m.hasComponent name = false ↔ m.getComponent name = RComponent.notFound) ∧
    (m.hasComponent name = true ↔ ∃ i, m.getComponent name = RComponent.impl i) := by
  cases hl : lookupComp m.components (toPascalCase name) with
  | none =>
    constructor
    · simp [ComponentMapper.hasComponent, ComponentMapper.getComponent, hl]
    · simp [ComponentMapper.hasComponent, ComponentMapper.getComponent, hl]
  | some c =>
    obtain ⟨k, hkmem⟩ := lookupComp_mem _ _ _ hl
    have hc : c ≠ RComponent.notFound := hm (k, c) hkmem
    cases c with
    | notFound => exact absurd rfl hc
    | impl i =>
      constructor
      · simp [ComponentMapper.hasComponent, ComponentMapper.getComponent, hl]
      · simp [ComponentMapper.hasComponent, ComponentMapper.getComponent, hl]

/-- Witness for C2: a one-entry registry, queried at a registered and at
an unregistered name. -/
theorem hasComponent_false_iff_fallback_witness :
    (((ComponentMapper.mk []).register "hero_banner" (RComponent.impl 1)).hasComponent
        "text_block" = false ↔
      ((ComponentMapper.mk []).register "hero_banner" (RComponent.impl 1)).getComponent
        "text_block" = RComponent.notFound) ∧
    (((ComponentMapper.mk []).register "hero_banner" (RComponent.impl 1)).hasComponent
        "text_block" = true ↔ ∃ i,
      ((ComponentMapper.mk []).register "hero_banner" (RComponent.impl 1)).getComponent
        "text_block" = RComponent.impl i) :=
  hasComponent_false_iff_fallback
    ((ComponentMapper.mk []).register "hero_banner" (RComponent.impl 1)) "text_block"
    (by decide)

/-! ## C3 — canonicalization is idempotent -/

/-- C3: `toPascalCase` is idempotent on every input string, and the
snake_case, kebab-case and PascalCase spellings of `hero banner` all
canonicalize to `HeroBanner`. -/
theorem toPascalCase_idempotent_examples :
    (∀ s : String, toPascalCase (toPascalCase s) = toPascalCase s) ∧
    toPascalCase "hero_banner" = "HeroBanner" ∧
    toPascalCase "hero-banner" = "HeroBanner" ∧
    toPascalCase "HeroBanner" = "HeroBanner" := by
  refine ⟨?_, by decide, by decide, by decide⟩
  intro s
  have h1 : ∀ c ∈ step2 (step1 s.data), isWordSep c = false :=
    fun c hc => isWordSep_of_mem_step2Go (step1 s.data) false c hc
  have h2 : ∀ c ∈ step3 (step2 (step1 s.data)), isWordSep c = false :=
    isWordSep_of_mem_step3 _ h1
  show String.mk (step3 (step2 (step1 (step3 (step2 (step1 s.data)))))) =
    String.mk (step3 (step2 (step1 s.data)))
  rw [step2_step1_of_noSep _ h2, step3_step3]

/-! ## Renderer helper lemmas -/

theorem renderBlock_eq_none_iff (invoke : Invoke) (m : ComponentMapper)
    (eps : PropsBag) (b : ContentBlock) :
    renderBlock invoke m eps b = none ↔ renderBlockThrows invoke m eps b = true := by
  cases hb : b.keys.head? with
  | none => simp [renderBlock, renderBlockThrows, hb]
  | some name =>
    cases hinv : invoke (m.getComponent name) ⟨toPascalCase name, eps, b.props⟩ with
    | ok node => simp [renderBlock, renderBlockThrows, hb, hinv]
    | error e => simp [renderBlock, renderBlockThrows, hb, hinv]

theorem renderBlock_eq_some_of_not_throws (invoke : Invoke) (m : ComponentMapper)
    (eps : PropsBag) (b : ContentBlock)
    (h : renderBlockThrows invoke m eps b = false) :
    ∃ node, renderBlock invoke m eps b = some node := by
  cases hr : renderBlock invoke m eps b with
  | none =>
    rw [(renderBlock_eq_none_iff invoke m eps b).mp hr] at h
    exact absurd h (by simp)
  | some node => exact ⟨node, rfl⟩

/-! ## C4 — Tree Renderer error isolation -/

/-- C4: if the block at index `k` throws during resolution or invocation
and every other block does not, the output sequence has the same length
as the input, position `k` is `null`, and every other position carries a
rendered node; the mapping is positionwise, so relative order is
preserved. -/
theorem componentRenderer_error_isolation (invoke : Invoke) (m : ComponentMapper)
    (eps : PropsBag) (blocks : List ContentBlock) (k : Nat) (bk : ContentBlock)
    (hbk : blocks[k]? = some bk)
    (hthrow : renderBlockThrows invoke m eps bk = true)
    (hok : ∀ j b, blocks[j]? = some b → j ≠ k → renderBlockThrows invoke m eps b = false) :
    (ComponentRenderer invoke m eps blocks).length = blocks.length ∧
    (ComponentRenderer invoke m eps blocks)[k]? = some none ∧
    ∀ j b, blocks[j]? = some b → j ≠ k → ∃ node,
      (ComponentRenderer invoke m eps blocks)[j]? = some (some node) := by
  refine ⟨List.length_map _ _, ?_, ?_⟩
  · rw [ComponentRenderer, List.getElem?_map, hbk, Option.map_some']
    rw [(renderBlock_eq_none_iff invoke m eps bk).mpr hthrow]
  · intro j b hjb hjk
    obtain ⟨node, hnode⟩ :=
      renderBlock_eq_some_of_not_throws invoke m eps b (hok j b hjb hjk)
    refine ⟨node, ?_⟩
    rw [ComponentRenderer, List.getElem?_map, hjb, Option.map_some', hnode]

/-- Witness for C4: two blocks, the second of which throws during
resolution (it has no type-name key, so `toPascalCase` is applied to
`undefined` inside the `try` block); the first renders normally. -/
theorem componentRenderer_error_isolation_witness :
    (ComponentRenderer (fun _ _ => Except.ok 7) (ComponentMapper.mk []) 0
      [⟨["hero_banner"], 5⟩, ⟨[], 6⟩]).length = 2 ∧
    (ComponentRenderer (fun _ _ => Except.ok 7) (ComponentMapper.mk []) 0
      [⟨["hero_banner"], 5⟩, ⟨[], 6⟩])[1]? = some none ∧
    ∀ j b, ([⟨["hero_banner"], 5⟩, ⟨[], 6⟩] : List ContentBlock)[j]? = some b → j ≠ 1 →
      ∃ node, (ComponentRenderer (fun _ _ => Except.ok 7) (ComponentMapper.mk []) 0
        [⟨["hero_banner"], 5⟩, ⟨[], 6⟩])[j]? = some (some node) := by
  refine componentRenderer_error_isolation (fun _ _ => Except.ok 7) (ComponentMapper.mk []) 0
    [⟨["hero_banner"], 5⟩, ⟨[], 6⟩] 1 ⟨[], 6⟩ rfl rfl ?_
  intro j b hjb hjk
  match j with
  | 0 =>
    have hb : b = (⟨["hero_banner"], 5⟩ : ContentBlock) := by
      simpa using hjb.symm
    subst hb
    rfl
  | 1 => exact absurd rfl hjk
  | n + 2 => simp at hjb

/-! ## C5 — Reference Resolver fallback path -/

/-- C5 counterexample: with an empty registry, `hasComponent` is false
for `foo_bar`, yet the node rendered for a reference of that type is the
invocation of the `NotFound` fallback obtained from `getComponent` — not
the output of the explicit `if (!Component)` pre-check branch (which
would carry the raw `_content_type_uid`). -/
theorem referencePlaceholder_precheck_counterexample :
    (ComponentMapper.mk []).hasComponent "foo_bar" = false ∧
    renderReference (ComponentMapper.mk []) none 0 (some ⟨some "foo_bar", "uid1", 3⟩) =
      RefNode.rendered RComponent.notFound "FooBar" "uid1" 0 3 ∧
    renderReference (ComponentMapper.mk []) none 0 (some ⟨some "foo_bar", "uid1", 3⟩) ≠
      RefNode.explicitNotFound "foo_bar" := by
  refine ⟨by decide, by decide, by decide⟩

/-- C5 (amended): the output of `ReferencePlaceholder` is one node per
input reference, order-preserving and of the same length as the input,
with the empty placeholder for null entries; but for a typed reference
whose type discriminator has no registered component, the `NotFound`
placeholder comes from `getComponent`'s generic fallback invocation — the
resolver's own `if (!Component)` pre-check branch is dead code, because
`getComponent` never returns a falsy value. -/
theorem referencePlaceholder_shape (m : ComponentMapper) (cn : Option String)
    (eps : PropsBag) (refs : List (Option SystemFields)) :
    (ReferencePlaceholder m cn eps refs).length = refs.length ∧
    (∀ j : Nat, (ReferencePlaceholder m cn eps refs)[j]? =
      (refs[j]?).map (renderReference m cn eps)) ∧
    (∀ j : Nat, refs[j]? = some none →
      (ReferencePlaceholder m cn eps refs)[j]? = some RefNode.empty) ∧
    (∀ (j : Nat) (r : SystemFields), refs[j]? = some (some r) → cn = none →
      m.hasComponent (toPascalCase (r.contentTypeUid.getD "")) = false →
      (ReferencePlaceholder m cn eps refs)[j]? =
        some (RefNode.rendered RComponent.notFound
          (toPascalCase (r.contentTypeUid.getD "")) r.uid eps r.fields)) := by
  refine ⟨List.length_map _ _, ?_, ?_, ?_⟩
  · intro j
    rw [ReferencePlaceholder, List.getElem?_map]
  · intro j hj
    rw [ReferencePlaceholder, List.getElem?_map, hj, Option.map_some']
    rfl
  · intro j r hj hcn hmiss
    subst hcn
    rw [ReferencePlaceholder, List.getElem?_map, hj, Option.map_some']
    have hfall := getComponent_of_hasComponent_false m
      (toPascalCase (r.contentTypeUid.getD "")) hmiss
    rw [renderReference]
    simp only [jsOrString, componentIsFalsy, if_neg]
    rw [hfall]
    simp

/-- Witness for C5's amended theorem: a null entry renders the empty
placeholder and an unregistered typed reference renders the generic
`NotFound` fallback. -/
theorem referencePlaceholder_shape_witness :
    (ReferencePlaceholder (ComponentMapper.mk []) none 0
      [none, some ⟨some "foo_bar", "u", 4⟩]).length = 2 ∧
    (ReferencePlaceholder (ComponentMapper.mk []) none 0
      [none, some ⟨some "foo_bar", "u", 4⟩])[0]? = some RefNode.empty ∧
    (ReferencePlaceholder (ComponentMapper.mk []) none 0
      [none, some ⟨some "foo_bar", "u", 4⟩])[1]? =
      some (RefNode.rendered RComponent.notFound "FooBar" "u" 0 4) := by
  obtain ⟨h1, _, h3, h4⟩ := referencePlaceholder_shape (ComponentMapper.mk []) none 0
    [none, some ⟨some "foo_bar", "u", 4⟩]
  exact ⟨h1, h3 0 rfl, h4 1 ⟨some "foo_bar", "u", 4⟩ rfl rfl (by decide)⟩

/-! ## C6 — redirect cache serve-stale transition -/

/-- C6: when the cache holds rules whose age reaches the TTL and the
upstream fetch fails, `GET` returns the previously cached rules,
annotated as stale (`X-Stale`, when the cached set is non-empty) and as
degraded (`X-Error`), while the cached rules and the fill timestamp are
left unchanged (Stale to Stale). -/
theorem routeGET_serve_stale (st : CacheState) (now : Nat) (e : String)
    (rules : List RedirectRule) (hc : st.cachedRedirects = some rules)
    (hstale : ¬(now - st.cacheTimestamp < CACHE_DURATION)) :
    (routeGET st now (Except.error e)).1.status = 200 ∧
    (routeGET st now (Except.error e)).1.body = rules ∧
    (routeGET st now (Except.error e)).1.errorMsg = some e ∧
    (rules ≠ [] → (routeGET st now (Except.error e)).1.stale = true) ∧
    (routeGET st now (Except.error e)).2 = st := by
  by_cases hlen : rules.length > 0
  · simp [routeGET, hc, hstale, hlen]
  · have hnil : rules = [] := List.length_eq_zero.mp (by omega)
    subst hnil
    simp [routeGET, hc, hstale]

/-- Witness for C6: a one-rule cache filled at time 0, queried exactly at
the TTL with a failing fetch. -/
theorem routeGET_serve_stale_witness :
    (routeGET ⟨some [⟨"/a", "/b", true, 301⟩], 0⟩ 600000 (Except.error "boom")).1.status =
      200 ∧
    (routeGET ⟨some [⟨"/a", "/b", true, 301⟩], 0⟩ 600000 (Except.error "boom")).1.body =
      [⟨"/a", "/b", true, 301⟩] ∧
    (routeGET ⟨some [⟨"/a", "/b", true, 301⟩], 0⟩ 600000 (Except.error "boom")).1.errorMsg =
      some "boom" ∧
    (routeGET ⟨some [⟨"/a", "/b", true, 301⟩], 0⟩ 600000 (Except.error "boom")).1.stale =
      true ∧
    (routeGET ⟨some [⟨"/a", "/b", true, 301⟩], 0⟩ 600000 (Except.error "boom")).2 =
      ⟨some [⟨"/a", "/b", true, 301⟩], 0⟩ := by
  obtain ⟨h1, h2, h3, h4, h5⟩ := routeGET_serve_stale
    ⟨some [⟨"/a", "/b", true, 301⟩], 0⟩ 600000 "boom" [⟨"/a", "/b", true, 301⟩] rfl
    (by decide)
  exact ⟨h1, h2, h3, h4 (by decide), h5⟩

/-! ## C7 — the rules endpoint always answers 200 with an array -/

/-- C7: for every cache state and every upstream outcome the `GET`
handler responds with HTTP status 200 and a JSON array (the body is an
array by construction and the handler is total, hence never throws); on
a cold start with a failing fetch it returns the empty array annotated
as errored, and leaves the cache empty — the failure is not recorded as
a successful fill. -/
theorem routeGET_always_200_cold_start :
    (∀ (st : CacheState) (now : Nat) (fetch : Except String (Option (List Mapping))),
      (routeGET st now fetch).1.status = 200) ∧
    (∀ (ts now : Nat) (e : String),
      (routeGET ⟨none, ts⟩ now (Except.error e)).1.body = [] ∧
      (routeGET ⟨none, ts⟩ now (Except.error e)).1.errorMsg = some e ∧
      (routeGET ⟨none, ts⟩ now (Except.error e)).2 = ⟨none, ts⟩) := by
  constructor
  · intro st now fetch
    rcases st with ⟨cr, ts⟩
    cases cr with
    | none => cases fetch <;> rfl
    | some rules =>
      by_cases hfresh : now - ts < CACHE_DURATION
      · simp [routeGET, hfresh]
      · cases fetch with
        | ok entries => simp [routeGET, hfresh]
        | error e =>
          by_cases hlen : rules.length > 0 <;> simp [routeGET, hfresh, hlen]
  · intro ts now e
    exact ⟨rfl, rfl, rfl⟩

/-! ## C10 — served rules are Active-only, status 301, permanent -/

/-- C10: every rule served from a successful fetch is derived from an
upstream mapping whose `status` field is `Active`, and carries the
hardcoded `status := 301` and `permanent := true`; the upstream entry's
own redirect status code (`Mapping.statusCode`) is never propagated, so
no served rule can carry any status other than 301. -/
theorem routeGET_active_only_301 (st : CacheState) (now : Nat)
    (entries : Option (List Mapping))
    (hmiss : st.cachedRedirects = none ∨ ¬(now - st.cacheTimestamp < CACHE_DURATION))
    (r : RedirectRule) (hr : r ∈ (routeGET st now (Except.ok entries)).1.body) :
    r.status = 301 ∧ r.permanent = true ∧
    ∃ mp ∈ entries.getD [], mp.status = "Active" ∧ r.source = mp.source ∧
      r.destination = mp.destination := by
  have hbody : (routeGET st now (Except.ok entries)).1.body = transformMappings entries := by
    rcases st with ⟨cr, ts⟩
    cases cr with
    | none => rfl
    | some rules =>
      have hfresh : ¬(now - ts < CACHE_DURATION) := by
        rcases hmiss with hmiss | hmiss
        · exact absurd hmiss (by simp)
        · exact hmiss
      simp [routeGET, hfresh]
  rw [hbody, transformMappings] at hr
  simp only [List.mem_map, List.mem_filter, decide_eq_true_eq] at hr
  obtain ⟨mp, ⟨hmem, hact⟩, heq⟩ := hr
  subst heq
  exact ⟨rfl, rfl, mp, hmem, hact, rfl, rfl⟩

/-- Witness for C10: a fetch delivering one Active and one Inactive
mapping, each with its own upstream status code, serves exactly the
Active one with status 301. -/
theorem routeGET_active_only_301_witness :
    (⟨"/a", "/b", true, 301⟩ : RedirectRule).status = 301 ∧
    (⟨"/a", "/b", true, 301⟩ : RedirectRule).permanent = true ∧
    ∃ mp ∈ ((some [⟨"Active", "/a", "/b", 302⟩, ⟨"Inactive", "/c", "/d", 307⟩] :
        Option (List Mapping)).getD []),
      mp.status = "Active" ∧ (⟨"/a", "/b", true, 301⟩ : RedirectRule).source = mp.source ∧
      (⟨"/a", "/b", true, 301⟩ : RedirectRule).destination = mp.destination := by
  refine routeGET_active_only_301 ⟨none, 0⟩ 0
    (some [⟨"Active", "/a", "/b", 302⟩, ⟨"Inactive", "/c", "/d", 307⟩]) (Or.inl rfl)
    ⟨"/a", "/b", true, 301⟩ ?_
  decide

/-! ## C8 — interceptor redirect construction -/

/-- C8: when redirects are enabled, the path is not on the skip list, the
rules fetch succeeds with `response.ok`, and the first rule whose
`source` equals the request path is `rule`, the interceptor answers with
a redirect whose status is the rule's `status` (or 301 when unset) and
whose `Location` is the rule's `destination` verbatim when it starts with
`http://` or `https://`, and otherwise the request's own URL with the
path replaced by the destination (origin ++ destination ++ query).  The
hypothesis excluding `status = 0` rules out the degenerate JS-falsy
status, which is not an HTTP status. -/
theorem interceptor_redirect_construction (req : EdgeRequest) (fetchR : RulesFetch)
    (rule : InterceptorRule)
    (hskip : isSkippedPath req.pathname = false)
    (hok : fetchR.ok = true)
    (hfind : fetchR.rules.find? (fun r => r.source = req.pathname) = some rule)
    (hstatus : rule.status ≠ some 0) :
    handler true req (Except.ok fetchR) =
      EdgeResult.redirect (rule.status.getD 301)
        (if strStartsWith rule.destination "http://" || strStartsWith rule.destination "https://"
          then rule.destination else setPathname req rule.destination) := by
  have hjs : jsOrStatus rule.status = rule.status.getD 301 := by
    cases hs : rule.status with
    | none => rfl
    | some s =>
      rw [jsOrStatus, if_neg]
      · rfl
      · intro h0
        exact hstatus (by rw [hs, h0])
  rw [handler, handlerBody]
  rw [if_neg (by simp), if_neg (by simp [hskip])]
  simp only [bind, Except.bind, hok, if_true, hfind, hjs]

/-- Witness for C8: one application per destination kind — an absolute
destination is used verbatim; a relative destination replaces the path
under the request's origin. -/
theorem interceptor_redirect_construction_witness :
    handler true ⟨"https://site.example", "/old", ""⟩
      (Except.ok ⟨true, [⟨"/old", "https://example.com/x", some 302⟩]⟩) =
      EdgeResult.redirect 302 "https://example.com/x" ∧
    handler true ⟨"https://site.example", "/old", ""⟩
      (Except.ok ⟨true, [⟨"/old", "/new", none⟩]⟩) =
      EdgeResult.redirect 301 "https://site.example/new" := by
  constructor
  · have h := interceptor_redirect_construction ⟨"https://site.example", "/old", ""⟩
      ⟨true, [⟨"/old", "https://example.com/x", some 302⟩]⟩
      ⟨"/old", "https://example.com/x", some 302⟩ (by decide) rfl (by decide) (by simp)
    rw [h]
    decide
  · have h := interceptor_redirect_construction ⟨"https://site.example", "/old", ""⟩
      ⟨true, [⟨"/old", "/new", none⟩]⟩ ⟨"/old", "/new", none⟩ (by decide) rfl (by decide)
      (by simp)
    rw [h]
    decide

/-! ## C9 — interceptor skip-list precedence and fail-open -/

/-- C9: a request whose path is on the skip list (an `/api/` or other
skipped prefix, or a path containing a dot) always passes through
unmodified, with the redirect rules never consulted — the result is the
same for every rules-fetch outcome, including one whose rule set contains
a source literally equal to the path; and whenever the `try` block of the
interceptor throws, the `catch` produces a pass-through (fail-open). -/
theorem interceptor_skip_and_fail_open :
    (∀ (enabled : Bool) (req : EdgeRequest) (f1 f2 : Except String RulesFetch),
      isSkippedPath req.pathname = true →
      handler enabled req f1 = EdgeResult.passthrough ∧
      handler enabled req f1 = handler enabled req f2) ∧
    (∀ (enabled : Bool) (req : EdgeRequest) (f : Except String RulesFetch) (e : String),
      handlerBody enabled req f = Except.error e →
      handler enabled req f = EdgeResult.passthrough) := by
  constructor
  · intro enabled req f1 f2 hskip
    cases enabled with
    | false => exact ⟨rfl, rfl⟩
    | true =>
      constructor
      · rw [handler, handlerBody, if_neg (by simp), if_pos (by simp [hskip])]
      · rw [handler, handlerBody, if_neg (by simp), if_pos (by simp [hskip])]
        rw [handler, handlerBody, if_neg (by simp), if_pos (by simp [hskip])]
  · intro enabled req f e herr
    rw [handler, herr]

/-- Witness for C9: a request to `/api/anything` passes through even
though a rule with exactly that source exists and rules are enabled; and
a request whose rules fetch rejects passes through. -/
theorem interceptor_skip_and_fail_open_witness :
    handler true ⟨"https://site.example", "/api/anything", ""⟩
      (Except.ok ⟨true, [⟨"/api/anything", "/new", none⟩]⟩) = EdgeResult.passthrough ∧
    handler true ⟨"https://site.example", "/page", ""⟩ (Except.error "network down") =
      EdgeResult.passthrough := by
  constructor
  · exact (interceptor_skip_and_fail_open.1 true ⟨"https://site.example", "/api/anything", ""⟩
      (Except.ok ⟨true, [⟨"/api/anything", "/new", none⟩]⟩)
      (Except.ok ⟨true, []⟩) (by decide)).1
  · exact interceptor_skip_and_fail_open.2 true ⟨"https://site.example", "/page", ""⟩
      (Except.error "network down") "network down" rfl
